import Mathlib

/-!
Shallow embedding of `src/main.py` (cafe directory Flask app): the `cafes`
table, the four form schemas, and the route handlers, together with proofs of
the specified request-handling contracts.

The database is modelled as a list of rows in insertion order; each handler is
a pure function from the persisted state (plus the request data and the
outcomes of external effects such as the SQL commit or the SMTP dialogue) to
the new persisted state and the HTTP-level result.
-/

set_option autoImplicit false

namespace CafeSite

/-- One row of the `cafes` table (class `Cafe` in `main.py`).  `coffee_price`
is nullable in the schema but every application write path sets it, so it is
modelled as a plain string. -/
structure Cafe where
  id : Nat
  name : String
  map_url : String
  img_url : String
  location : String
  seats : String
  has_toilet : Bool
  has_wifi : Bool
  has_sockets : Bool
  can_take_calls : Bool
  coffee_price : String
deriving DecidableEq, Repr

/-- The wtforms `DataRequired` validator on a string field: fails on an empty
or whitespace-only value (`not field.data.strip()`), i.e. it passes exactly
when some character is not whitespace. -/
def dataRequired (s : String) : Bool :=
  s.toList.any (fun c => !c.isWhitespace)

/-- Split a character sequence at the first occurrence of `://`, returning the
part before it and the part after it, or `none` when the separator does not
occur. -/
def schemeSplit : List Char → Option (List Char × List Char)
  | [] => none
  | ':' :: '/' :: '/' :: rest => some ([], rest)
  | c :: rest =>
    match schemeSplit rest with
    | some (pre, post) => some (c :: pre, post)
    | none => none

/-- Approximation of the wtforms `URL` validator: the value must consist of a
nonempty scheme and a nonempty remainder separated by `://`. -/
def validURL (s : String) : Bool :=
  match schemeSplit s.toList with
  | some (scheme, rest) => !scheme.isEmpty && !rest.isEmpty
  | none => false

/-- A `SelectField` with `choices=["YES","NO"]` accepts exactly those two
strings. -/
def selectOk (s : String) : Bool :=
  s == "YES" || s == "NO"

/-- The amenity conversion used by the handlers: True when the submitted
string equals YES, False otherwise. -/
def yesToBool (s : String) : Bool :=
  s == "YES"

/-- The raw field data of one submission of `AddCafeForm` (all fields arrive
as strings). -/
structure AddSubmission where
  name : String
  map_url : String
  img_url : String
  location : String
  seats : String
  has_toilet : String
  has_wifi : String
  has_sockets : String
  can_take_calls : String
  coffee_price : String
deriving DecidableEq, Repr

/-- Validation of `AddCafeForm`: every field is `DataRequired`, the two link
fields must also be URLs, and the four amenity selections must come from the
`YES`/`NO` choice set. -/
def addFormValidates (sub : AddSubmission) : Bool :=
  dataRequired sub.name &&
  dataRequired sub.map_url && validURL sub.map_url &&
  dataRequired sub.img_url && validURL sub.img_url &&
  dataRequired sub.location &&
  dataRequired sub.seats &&
  selectOk sub.has_toilet &&
  selectOk sub.has_wifi &&
  selectOk sub.has_sockets &&
  selectOk sub.can_take_calls &&
  dataRequired sub.coffee_price

/-- The row built by `add_cafe` from a validated submission (`new_cafe = Cafe(...)`):
amenity strings are converted with `yesToBool` and the price is stored by the
f-string that prepends the currency glyph to the submitted coffee_price.
`newId` stands for the autoincrement primary key assigned on insert. -/
def cafeOfAdd (newId : Nat) (sub : AddSubmission) : Cafe :=
  { id := newId
    name := sub.name
    map_url := sub.map_url
    img_url := sub.img_url
    location := sub.location
    seats := sub.seats
    has_toilet := yesToBool sub.has_toilet
    has_wifi := yesToBool sub.has_wifi
    has_sockets := yesToBool sub.has_sockets
    can_take_calls := yesToBool sub.can_take_calls
    coffee_price := "£" ++ sub.coffee_price }

/-- HTTP-level result of the `/add` handler. -/
inductive AddResult where
  | redirectToCafes
  | renderAddForm
deriving DecidableEq, Repr

/-- The `/add` handler (`add_cafe`): on a validating submission it inserts the
converted row and redirects to the listing view; otherwise it re-renders the
form.  Returns the new table contents and the HTTP result. -/
def add_cafe (db : List Cafe) (newId : Nat) (sub : AddSubmission) :
    List Cafe × AddResult :=
  if addFormValidates sub then
    (db ++ [cafeOfAdd newId sub], .redirectToCafes)
  else
    (db, .renderAddForm)

/-- The raw field data of one submission of `UpdateCafeForm`: the same field
set as the add form plus the explicit `csrf_token` field. -/
structure UpdateSubmission where
  csrf_token : String
  name : String
  map_url : String
  img_url : String
  location : String
  seats : String
  has_toilet : String
  has_wifi : String
  has_sockets : String
  can_take_calls : String
  coffee_price : String
deriving DecidableEq, Repr

/-- The custom inline validator `UpdateCafeForm.validate_coffee_price`:
returns `true` (no `ValidationError`) exactly when the submitted price starts
with the `£` glyph, via the startswith test of the field data; the glyph is a
single character, so the test is on the first character. -/
def validate_coffee_price (s : String) : Bool :=
  match s.toList with
  | c :: _ => c == '£'
  | [] => false

/-- Validation of `UpdateCafeForm`: the add-form field rules, plus
`DataRequired` on `csrf_token`, plus the custom price rule. -/
def updateFormValidates (sub : UpdateSubmission) : Bool :=
  dataRequired sub.csrf_token &&
  dataRequired sub.name &&
  dataRequired sub.map_url && validURL sub.map_url &&
  dataRequired sub.img_url && validURL sub.img_url &&
  dataRequired sub.location &&
  dataRequired sub.seats &&
  selectOk sub.has_toilet &&
  selectOk sub.has_wifi &&
  selectOk sub.has_sockets &&
  selectOk sub.can_take_calls &&
  dataRequired sub.coffee_price &&
  validate_coffee_price sub.coffee_price

/-- The in-place mutation of the fetched row performed by `update_cafe`
(lines `cafe.name = form.name.data` …): every field is overwritten from the
form data, amenities through the `YES` test, and the price verbatim (no glyph
is prepended on this path). -/
def cafeOfUpdate (cafe : Cafe) (sub : UpdateSubmission) : Cafe :=
  { id := cafe.id
    name := sub.name
    map_url := sub.map_url
    img_url := sub.img_url
    location := sub.location
    seats := sub.seats
    has_toilet := yesToBool sub.has_toilet
    has_wifi := yesToBool sub.has_wifi
    has_sockets := yesToBool sub.has_sockets
    can_take_calls := yesToBool sub.can_take_calls
    coffee_price := sub.coffee_price }

/-- One transient notice produced via `flash(...)`, by constructor rather than
by message text. -/
inductive Flash where
  | updateSuccess (cafeName : String)
  | updateFailure (cafeName : String) (err : String)
  | deleteSuccess (cafeName : String)
  | reportSent (cafeName : String)
  | emailSent
  | emailFailed (err : String)
deriving DecidableEq, Repr

/-- HTTP-level result of the `/update-cafe/<id>` handler.  `renderEdit`
carries the field data the redisplayed form shows.  The form is constructed
once as `UpdateCafeForm(obj=cafe)`, but on a submitted POST flask-wtf binds
the request formdata and wtforms gives the formdata precedence over the
attributes of the hydration object for every field present in the
submission; a full submission provides every field, so the redisplayed form
shows the submitted values, and the fetched record would fill only fields
absent from the formdata. -/
inductive UpdateOutcome where
  | notFound
  | redirectToCafes
  | renderEdit (formData : UpdateSubmission)
deriving DecidableEq, Repr

/-- The `/update-cafe/<id>` handler (`update_cafe`), on a POST carrying the
full submission `sub`.  `commitError` is the outcome of the
`db.session.commit()` call: `none` when the commit succeeds, `some e` when it
raises with message `e` (in which case the session is rolled back, so the
persisted state is unchanged).  On both the validation-failure path and the
commit-failure path the handler re-renders the edit page with the same form
object it built at the start of the request; because the formdata of the
submission overrides the hydration object for every submitted field, that
form displays `sub` itself.  Returns the persisted table, the HTTP result
and the flashed notices. -/
def update_cafe (db : List Cafe) (cafe_id : Nat) (sub : UpdateSubmission)
    (commitError : Option String) :
    List Cafe × UpdateOutcome × List Flash :=
  match db.find? (fun c => c.id == cafe_id) with
  | none => (db, .notFound, [])
  | some cafe =>
    if updateFormValidates sub then
      let updated := cafeOfUpdate cafe sub
      match commitError with
      | none =>
        (db.map (fun c => if c.id = cafe_id then updated else c),
         .redirectToCafes, [.updateSuccess updated.name])
      | some e =>
        (db, .renderEdit sub, [.updateFailure updated.name e])
    else
      (db, .renderEdit sub, [])

/-- HTTP-level result of `/search`.  Both constructors are ordinary JSON
responses: `found` is `jsonify(cafe=cafe.to_dict())` carrying the full field
set of the row, and `notFoundPayload` is the structured
`jsonify(error=...)` body.  Neither is an HTTP error status. -/
inductive SearchResult where
  | found (cafe : Cafe)
  | notFoundPayload
deriving DecidableEq, Repr

/-- The HTTP status of a `/search` response: `jsonify` always answers 200,
for the error payload as well. -/
def searchStatus (_r : SearchResult) : Nat := 200

/-- The `/search` handler (`get_cafe_at_location`): `loc` is
`request.args.get("loc")`, absent when the query parameter is missing (the
SQL comparison then matches no row because `location` is non-null);
`filter(Cafe.location == loc).first()` is the first row in table order whose
location equals the query. -/
def get_cafe_at_location (db : List Cafe) (loc : Option String) : SearchResult :=
  match db.find? (fun c => some c.location == loc) with
  | some cafe => .found cafe
  | none => .notFoundPayload

/-- HTTP-level result of `/random`.  `ok` is `jsonify(cafe=...)`;
`unhandledIndexError` is the uncaught `IndexError` that `random.choice`
raises on an empty sequence, which the handler does not catch (the request
fails with the framework's generic 500, not a deliberate no-data error). -/
inductive RandomOutcome where
  | ok (cafe : Cafe)
  | unhandledIndexError
deriving DecidableEq, Repr

/-- `random.choice(cafes)`: on a nonempty list, pick the element at the drawn
index (the draw is uniform over positions; `k` stands for the generator
output and is reduced modulo the length); on the empty list the call raises
`IndexError`, modelled as `none`. -/
def random_choice (l : List Cafe) (k : Nat) : Option Cafe :=
  if h : l = [] then
    none
  else
    some (l.get ⟨k % l.length, Nat.mod_lt _ (List.length_pos.mpr h)⟩)

/-- The `/random` handler (`get_random_cafe`): fetch all rows, choose one with
`random.choice`, and return it as structured data; an empty table makes the
choice raise and the exception propagates out of the handler. -/
def get_random_cafe (db : List Cafe) (k : Nat) : RandomOutcome :=
  match random_choice db k with
  | some cafe => .ok cafe
  | none => .unhandledIndexError

/-- The configuration the delete/report route reads: the admin shared secret,
the API_KEY entry of the app config.  The mail relay settings only feed the
SMTP dialogue, which is modelled by its outcome. -/
structure Config where
  API_KEY : String
deriving DecidableEq, Repr

/-- The request data seen by `/report-closed/<id>`: each `request.form.get`
yields `none` when the field is absent from the submission. -/
structure ReportRequest where
  api_key : Option String
  sender : Option String
  message : Option String
deriving DecidableEq, Repr

/-- Validation of `ReportClosed`: sender contact string and free-text message
both present and `DataRequired`. -/
def reportFormValidates (req : ReportRequest) : Bool :=
  match req.sender, req.message with
  | some s, some m => dataRequired s && dataRequired m
  | _, _ => false

/-- `Cafe.__repr__`: the printable summary
`<id, name, location, map_url>` embedded into the report body. -/
def cafeRepr (c : Cafe) : String :=
  "<" ++ toString c.id ++ ", " ++ c.name ++ ", " ++ c.location ++ ", " ++ c.map_url ++ ">"

/-- The notification body composed by the report branch: the user message, a
separator line, and a label followed by the printable summary of the cafe
(the label is rendered here without the possessive apostrophe of the Python
literal; no claim depends on the label text). -/
def composeMessage (message : String) (cafe : Cafe) : String :=
  message ++ "\n-----\nCafe Info: " ++ cafeRepr cafe

/-- Outcome of the SMTP dialogue inside `send_email`: success, or any raised
exception (connection, STARTTLS, auth, send) with its message. -/
inductive SmtpOutcome where
  | sent
  | failed (err : String)
deriving DecidableEq, Repr

/-- One attempted dispatch through `send_email` (sender string and composed
body handed to the SMTP session). -/
structure EmailAttempt where
  sender : String
  message : String
deriving DecidableEq, Repr

/-- `send_email`: attempts the SMTP dialogue; every exception is caught inside
the function and turned into a danger flash, a success into a success flash.
It returns the flash and the attempt, never an error: no failure propagates
to the caller. -/
def send_email (sender message : String) (smtp : SmtpOutcome) :
    Flash × EmailAttempt :=
  match smtp with
  | .sent => (.emailSent, { sender := sender, message := message })
  | .failed e => (.emailFailed e, { sender := sender, message := message })

/-- HTTP-level result of `/report-closed/<id>`. -/
inductive DeleteOutcome where
  | notFound
  | redirectToCafes
  | renderReportPage
deriving DecidableEq, Repr

/-- Full effect of one `/report-closed/<id>` request: the persisted table, the
HTTP result, the flashed notices and the attempted email dispatches. -/
structure DeleteResult where
  db : List Cafe
  outcome : DeleteOutcome
  flashes : List Flash
  emails : List EmailAttempt
deriving DecidableEq, Repr

/-- The closure-report branch of `delete_cafe` (the code after the api-key
test): if the report form validates, fetch the target row (404 if absent),
compose the notification, dispatch it through `send_email`, flash, and
redirect whatever the dispatch outcome; otherwise render the page with both
forms.  The table is never modified on this branch. -/
def report_branch (db : List Cafe) (cafe_id : Nat) (req : ReportRequest)
    (smtp : SmtpOutcome) : DeleteResult :=
  if reportFormValidates req then
    match db.find? (fun c => c.id == cafe_id) with
    | none =>
      { db := db, outcome := .notFound, flashes := [], emails := [] }
    | some cafe =>
      let body := composeMessage ((req.message).getD "") cafe
      let sent := send_email ((req.sender).getD "") body smtp
      { db := db
        outcome := .redirectToCafes
        flashes := [sent.fst, .reportSent cafe.name]
        emails := [sent.snd] }
  else
    { db := db, outcome := .renderReportPage, flashes := [], emails := [] }

/-- The `/report-closed/<id>` handler (`delete_cafe`).  First the submitted
`api_key` is compared with the configured admin key: on a match the target row
is fetched (404 if absent), deleted and committed, and the handler redirects
immediately.  Only otherwise does control reach the closure-report branch. -/
def delete_cafe (cfg : Config) (db : List Cafe) (cafe_id : Nat)
    (req : ReportRequest) (smtp : SmtpOutcome) : DeleteResult :=
  if req.api_key = some cfg.API_KEY then
    match db.find? (fun c => c.id == cafe_id) with
    | none =>
      { db := db, outcome := .notFound, flashes := [], emails := [] }
    | some cafe =>
      { db := db.filter (fun c => c.id != cafe_id)
        outcome := .redirectToCafes
        flashes := [.deleteSuccess cafe.name]
        emails := [] }
  else
    report_branch db cafe_id req smtp

/-! ### Concrete fixtures used by the witness theorems -/

/-- A concrete persisted row. -/
def cafeOne : Cafe :=
  { id := 1
    name := "Science Gallery London"
    map_url := "https://maps.example/sgl"
    img_url := "https://img.example/sgl.png"
    location := "London Bridge"
    seats := "50+"
    has_toilet := true
    has_wifi := true
    has_sockets := true
    can_take_calls := false
    coffee_price := "£2.40" }

/-- A second concrete persisted row. -/
def cafeTwo : Cafe :=
  { id := 2
    name := "Peckham Levels"
    map_url := "https://maps.example/pl"
    img_url := "https://img.example/pl.png"
    location := "Peckham"
    seats := "20-30"
    has_toilet := true
    has_wifi := false
    has_sockets := false
    can_take_calls := true
    coffee_price := "£2.75" }

/-- A concrete two-row table. -/
def sampleDb : List Cafe := [cafeOne, cafeTwo]

/-- A concrete valid submission of the add form. -/
def sampleAdd : AddSubmission :=
  { name := "Brew and Bytes"
    map_url := "https://maps.example/bnb"
    img_url := "https://img.example/bnb.png"
    location := "Shoreditch"
    seats := "10-20"
    has_toilet := "YES"
    has_wifi := "YES"
    has_sockets := "NO"
    can_take_calls := "NO"
    coffee_price := "3.50" }

/-- A concrete valid submission of the update form. -/
def sampleUpdate : UpdateSubmission :=
  { csrf_token := "token123"
    name := "Science Gallery Cafe"
    map_url := "https://maps.example/sgl2"
    img_url := "https://img.example/sgl2.png"
    location := "Southwark"
    seats := "60+"
    has_toilet := "YES"
    has_wifi := "YES"
    has_sockets := "YES"
    can_take_calls := "NO"
    coffee_price := "£2.60" }

/-- A concrete report request carrying the wrong admin key together with a
valid closure report. -/
def sampleReport : ReportRequest :=
  { api_key := some "WrongKey"
    sender := some "visitor at example.org"
    message := some "This cafe looks permanently closed." }

/-- A concrete configuration. -/
def sampleConfig : Config := { API_KEY := "TopSecretAPIKey" }

/-! ### Helper lemmas -/

/-- The closure-report branch never changes the persisted table. -/
theorem report_branch_db (db : List Cafe) (cafe_id : Nat) (req : ReportRequest)
    (smtp : SmtpOutcome) : (report_branch db cafe_id req smtp).db = db := by
  unfold report_branch
  split
  · split <;> rfl
  · rfl

/-- Filtering with a predicate every element satisfies keeps the list. -/
theorem filter_ne_id_of_no_match (l : List Cafe) (cafe_id : Nat)
    (h : ∀ c ∈ l, c.id ≠ cafe_id) :
    l.filter (fun c => c.id != cafe_id) = l := by
  apply List.filter_eq_self.mpr
  intro c hc
  simpa using h c hc

/-- With pairwise-distinct ids, deleting by id removes exactly one row. -/
theorem filter_delete_length :
    ∀ (db : List Cafe) (cafe_id : Nat) (cafe : Cafe),
      (db.map Cafe.id).Nodup → cafe ∈ db → cafe.id = cafe_id →
      (db.filter (fun c => c.id != cafe_id)).length + 1 = db.length := by
  intro db
  induction db with
  | nil => intro _ _ _ hmem _; cases hmem
  | cons a l ih =>
    intro cafe_id cafe hnodup hmem hid
    rw [List.map_cons, List.nodup_cons] at hnodup
    obtain ⟨hnotin, hnd⟩ := hnodup
    rcases List.mem_cons.mp hmem with rfl | hmem'
    · have hfa : (cafe.id != cafe_id) = false := by simp [hid]
      have hrest : l.filter (fun c => c.id != cafe_id) = l := by
        apply filter_ne_id_of_no_match
        intro c hc hcid
        exact hnotin (hid ▸ hcid ▸ List.mem_map_of_mem Cafe.id hc)
      simp [List.filter_cons, hfa, hrest]
    · have haid : a.id ≠ cafe_id := by
        intro hfalse
        have : cafe.id ∈ l.map Cafe.id := List.mem_map_of_mem Cafe.id hmem'
        exact hnotin ((hfalse.trans hid.symm) ▸ this)
      have hfa : (a.id != cafe_id) = true := by simp [haid]
      simp only [List.filter_cons, hfa, if_true, List.length_cons]
      have := ih cafe_id cafe hnd hmem' hid
      omega

/-- Updating by id rewrites exactly the row `find?` located. -/
theorem find?_map_update (db : List Cafe) (cafe_id : Nat) (u : Cafe)
    (hu : u.id = cafe_id) (cafe : Cafe)
    (hfind : db.find? (fun c => c.id == cafe_id) = some cafe) :
    (db.map (fun c => if c.id = cafe_id then u else c)).find?
      (fun c => c.id == cafe_id) = some u := by
  rw [List.find?_map]
  have hp : ((fun c => c.id == cafe_id) ∘ fun c : Cafe => if c.id = cafe_id then u else c)
      = fun c : Cafe => c.id == cafe_id := by
    funext c
    by_cases hc : c.id = cafe_id
    · simp [Function.comp, hc, hu]
    · simp [Function.comp, hc]
  rw [hp, hfind]
  have hcid : cafe.id = cafe_id := by simpa using List.find?_some hfind
  simp [hcid]

/-- A `find?` over a decomposition whose front part has no match returns the
row at the split point when it matches. -/
theorem find?_first_match (p : Cafe → Bool) :
    ∀ (l1 : List Cafe) (cafe : Cafe) (l2 : List Cafe),
      (∀ c ∈ l1, p c = false) → p cafe = true →
      (l1 ++ cafe :: l2).find? p = some cafe := by
  intro l1
  induction l1 with
  | nil =>
    intro cafe l2 _ hp
    rw [List.nil_append]
    exact List.find?_cons_of_pos l2 hp
  | cons a l ih =>
    intro cafe l2 hl hp
    have ha : ¬ (p a = true) := by simp [hl a (List.mem_cons_self a l)]
    rw [List.cons_append, List.find?_cons_of_neg _ ha]
    exact ih cafe l2 (fun c hc => hl c (List.mem_cons_of_mem a hc)) hp

/-- The first character test behind `validate_coffee_price`, in terms of the
character sequence of the string. -/
theorem validate_coffee_price_iff (s : String) :
    validate_coffee_price s = true ↔ ∃ rest, s.toList = '£' :: rest := by
  unfold validate_coffee_price
  cases h : s.toList with
  | nil => simp [h]
  | cons c cs =>
    simp only [h]
    constructor
    · intro hc
      exact ⟨cs, by rw [List.cons.injEq]; exact ⟨by simpa using hc, rfl⟩⟩
    · rintro ⟨rest, hrest⟩
      rw [List.cons.injEq] at hrest
      simp [hrest.1]

/-! ### Claim theorems -/

/-- C1: for every add-form submission that passes validation, handling the
POST to `/add` increases the `cafes` row count by exactly one, and the new
row's fields equal the submitted values, with each of the four amenity
strings mapped `YES` to `true` and `NO` to `false`, and the coffee price
stored prefixed with the currency glyph. -/
theorem add_valid_submission_inserts_one_converted_row
    (db : List Cafe) (newId : Nat) (sub : AddSubmission)
    (h : addFormValidates sub = true) :
    (add_cafe db newId sub).fst.length = db.length + 1 ∧
    ∃ c : Cafe,
      (add_cafe db newId sub).fst = db ++ [c] ∧
      (add_cafe db newId sub).snd = AddResult.redirectToCafes ∧
      c.name = sub.name ∧
      c.map_url = sub.map_url ∧
      c.img_url = sub.img_url ∧
      c.location = sub.location ∧
      c.seats = sub.seats ∧
      (sub.has_toilet = "YES" → c.has_toilet = true) ∧
      (sub.has_toilet = "NO" → c.has_toilet = false) ∧
      (sub.has_wifi = "YES" → c.has_wifi = true) ∧
      (sub.has_wifi = "NO" → c.has_wifi = false) ∧
      (sub.has_sockets = "YES" → c.has_sockets = true) ∧
      (sub.has_sockets = "NO" → c.has_sockets = false) ∧
      (sub.can_take_calls = "YES" → c.can_take_calls = true) ∧
      (sub.can_take_calls = "NO" → c.can_take_calls = false) ∧
      c.coffee_price = "£" ++ sub.coffee_price := by
  have hadd : add_cafe db newId sub = (db ++ [cafeOfAdd newId sub], .redirectToCafes) := by
    simp [add_cafe, h]
  rw [hadd]
  refine ⟨by simp, cafeOfAdd newId sub, rfl, rfl, rfl, rfl, rfl, rfl, rfl,
    ?_, ?_, ?_, ?_, ?_, ?_, ?_, ?_, rfl⟩
  · intro ht; show yesToBool sub.has_toilet = true; rw [ht]; decide
  · intro ht; show yesToBool sub.has_toilet = false; rw [ht]; decide
  · intro ht; show yesToBool sub.has_wifi = true; rw [ht]; decide
  · intro ht; show yesToBool sub.has_wifi = false; rw [ht]; decide
  · intro ht; show yesToBool sub.has_sockets = true; rw [ht]; decide
  · intro ht; show yesToBool sub.has_sockets = false; rw [ht]; decide
  · intro ht; show yesToBool sub.can_take_calls = true; rw [ht]; decide
  · intro ht; show yesToBool sub.can_take_calls = false; rw [ht]; decide

/-- C1 witness: the theorem applied to the concrete sample table and sample
submission. -/
theorem add_valid_submission_inserts_one_converted_row_witness :
    addFormValidates sampleAdd = true ∧
    ((add_cafe sampleDb 3 sampleAdd).fst.length = sampleDb.length + 1 ∧
     ∃ c : Cafe,
       (add_cafe sampleDb 3 sampleAdd).fst = sampleDb ++ [c] ∧
       (add_cafe sampleDb 3 sampleAdd).snd = AddResult.redirectToCafes ∧
       c.name = sampleAdd.name ∧
       c.map_url = sampleAdd.map_url ∧
       c.img_url = sampleAdd.img_url ∧
       c.location = sampleAdd.location ∧
       c.seats = sampleAdd.seats ∧
       (sampleAdd.has_toilet = "YES" → c.has_toilet = true) ∧
       (sampleAdd.has_toilet = "NO" → c.has_toilet = false) ∧
       (sampleAdd.has_wifi = "YES" → c.has_wifi = true) ∧
       (sampleAdd.has_wifi = "NO" → c.has_wifi = false) ∧
       (sampleAdd.has_sockets = "YES" → c.has_sockets = true) ∧
       (sampleAdd.has_sockets = "NO" → c.has_sockets = false) ∧
       (sampleAdd.can_take_calls = "YES" → c.can_take_calls = true) ∧
       (sampleAdd.can_take_calls = "NO" → c.can_take_calls = false) ∧
       c.coffee_price = "£" ++ sampleAdd.coffee_price) :=
  ⟨by decide,
   add_valid_submission_inserts_one_converted_row sampleDb 3 sampleAdd (by decide)⟩

/-- C6: for every validating add submission, the stored coffee price equals
the `£` glyph prepended to the submitted price string, regardless of the
input content (an input already starting with the glyph is prefixed again);
in particular a price input of `3.50` is stored as `£3.50`. -/
theorem add_price_always_glyph_prepended
    (db : List Cafe) (newId : Nat) (sub : AddSubmission)
    (h : addFormValidates sub = true) :
    ∃ c : Cafe,
      (add_cafe db newId sub).fst = db ++ [c] ∧
      c.coffee_price = "£" ++ sub.coffee_price ∧
      (sub.coffee_price = "3.50" → c.coffee_price = "£3.50") ∧
      (sub.coffee_price = "£3.50" → c.coffee_price = "££3.50") := by
  have hadd : add_cafe db newId sub = (db ++ [cafeOfAdd newId sub], .redirectToCafes) := by
    simp [add_cafe, h]
  rw [hadd]
  refine ⟨cafeOfAdd newId sub, rfl, rfl, ?_, ?_⟩
  · intro hp
    show "£" ++ sub.coffee_price = "£3.50"
    rw [hp]
    decide
  · intro hp
    show "£" ++ sub.coffee_price = "££3.50"
    rw [hp]
    decide

/-- C6 witness: the theorem applied to the concrete sample submission whose
price input is `3.50`. -/
theorem add_price_always_glyph_prepended_witness :
    addFormValidates sampleAdd = true ∧
    ∃ c : Cafe,
      (add_cafe [] 1 sampleAdd).fst = [] ++ [c] ∧
      c.coffee_price = "£" ++ sampleAdd.coffee_price ∧
      (sampleAdd.coffee_price = "3.50" → c.coffee_price = "£3.50") ∧
      (sampleAdd.coffee_price = "£3.50" → c.coffee_price = "££3.50") :=
  ⟨by decide, add_price_always_glyph_prepended [] 1 sampleAdd (by decide)⟩

/-- A concrete update submission whose price lacks the glyph. -/
def sampleBadUpdate : UpdateSubmission :=
  { sampleUpdate with coffee_price := "2.60" }

/-- C2: the update form's coffee-price validator fails exactly when the
submitted price does not begin with the `£` glyph; a price beginning with the
glyph raises no error from the custom validator; and the update path stores
the submitted price verbatim, never prepending the glyph itself. -/
theorem update_price_validator_requires_glyph
    (s : String)
    (bad : UpdateSubmission) (hbad : validate_coffee_price bad.coffee_price = false)
    (db : List Cafe) (cafe_id : Nat) (good : UpdateSubmission) (cafe : Cafe)
    (hfind : db.find? (fun c => c.id == cafe_id) = some cafe)
    (hgood : updateFormValidates good = true) :
    (validate_coffee_price s = false ↔ ¬ ∃ rest, s.toList = '£' :: rest) ∧
    updateFormValidates bad = false ∧
    (∃ rest, good.coffee_price.toList = '£' :: rest) ∧
    (update_cafe db cafe_id good none).fst.find? (fun c => c.id == cafe_id)
      = some (cafeOfUpdate cafe good) ∧
    (cafeOfUpdate cafe good).coffee_price = good.coffee_price := by
  refine ⟨?_, ?_, ?_, ?_, rfl⟩
  · rw [Bool.eq_false_iff]
    exact not_congr (validate_coffee_price_iff s)
  · simp [updateFormValidates, hbad]
  · have hv : validate_coffee_price good.coffee_price = true := by
      by_contra hne
      have hfalse : validate_coffee_price good.coffee_price = false := by
        cases h' : validate_coffee_price good.coffee_price
        · rfl
        · exact absurd h' hne
      rw [updateFormValidates] at hgood
      simp [hfalse] at hgood
    exact (validate_coffee_price_iff _).mp hv
  · have hu : (cafeOfUpdate cafe good).id = cafe_id := by
      have := List.find?_some hfind
      simpa [cafeOfUpdate] using this
    have hred : update_cafe db cafe_id good none
        = (db.map (fun c => if c.id = cafe_id then cafeOfUpdate cafe good else c),
           .redirectToCafes, [.updateSuccess (cafeOfUpdate cafe good).name]) := by
      simp [update_cafe, hfind, hgood]
    rw [hred]
    exact find?_map_update db cafe_id _ hu cafe hfind

/-- C2 witness: the theorem applied to concrete price strings, a concrete
glyph-less submission and a concrete validating submission. -/
theorem update_price_validator_requires_glyph_witness :
    validate_coffee_price sampleBadUpdate.coffee_price = false ∧
    sampleDb.find? (fun c => c.id == 1) = some cafeOne ∧
    updateFormValidates sampleUpdate = true ∧
    ((validate_coffee_price "2.60" = false ↔ ¬ ∃ rest, "2.60".toList = '£' :: rest) ∧
     updateFormValidates sampleBadUpdate = false ∧
     (∃ rest, sampleUpdate.coffee_price.toList = '£' :: rest) ∧
     (update_cafe sampleDb 1 sampleUpdate none).fst.find? (fun c => c.id == 1)
       = some (cafeOfUpdate cafeOne sampleUpdate) ∧
     (cafeOfUpdate cafeOne sampleUpdate).coffee_price = sampleUpdate.coffee_price) :=
  ⟨by decide, by decide, by decide,
   update_price_validator_requires_glyph "2.60" sampleBadUpdate (by decide)
     sampleDb 1 sampleUpdate cafeOne (by decide) (by decide)⟩

/-- C5 counterexample: at a concrete commit failure the redisplayed form
carries the failed submission (name Science Gallery Cafe), although the
persisted record fetched for the request is `cafeOne` (name Science Gallery
London): the form is not populated from the currently persisted record. -/
theorem update_failure_redisplay_counterexample :
    sampleDb.find? (fun c => c.id == 1) = some cafeOne ∧
    updateFormValidates sampleUpdate = true ∧
    (update_cafe sampleDb 1 sampleUpdate (some "disk full")).snd.fst
      = UpdateOutcome.renderEdit sampleUpdate ∧
    sampleUpdate.name ≠ cafeOne.name := by decide

/-- C5 (amended): for every update submission that passes validation but
whose commit fails, the transaction is rolled back (the persisted table is
unchanged) and the error is flashed as a transient notice, but the
redisplayed form carries the failed submission, because the submitted
formdata takes precedence over the object given for hydration, not the
values of the persisted record. -/
theorem update_failure_rollback_redisplays_submission
    (db : List Cafe) (cafe_id : Nat) (sub : UpdateSubmission) (cafe : Cafe) (e : String)
    (hfind : db.find? (fun c => c.id == cafe_id) = some cafe)
    (hval : updateFormValidates sub = true) :
    (update_cafe db cafe_id sub (some e)).fst = db ∧
    (update_cafe db cafe_id sub (some e)).snd.fst = UpdateOutcome.renderEdit sub ∧
    (update_cafe db cafe_id sub (some e)).snd.snd = [Flash.updateFailure sub.name e] := by
  have hred : update_cafe db cafe_id sub (some e)
      = (db, .renderEdit sub, [.updateFailure sub.name e]) := by
    simp [update_cafe, hfind, hval, cafeOfUpdate]
  rw [hred]
  exact ⟨rfl, rfl, rfl⟩

/-- C5 witness: the amended theorem applied to the sample table, the sample
update submission and a concrete commit failure. -/
theorem update_failure_rollback_redisplays_submission_witness :
    sampleDb.find? (fun c => c.id == 1) = some cafeOne ∧
    updateFormValidates sampleUpdate = true ∧
    ((update_cafe sampleDb 1 sampleUpdate (some "disk full")).fst = sampleDb ∧
     (update_cafe sampleDb 1 sampleUpdate (some "disk full")).snd.fst
       = UpdateOutcome.renderEdit sampleUpdate ∧
     (update_cafe sampleDb 1 sampleUpdate (some "disk full")).snd.snd
       = [Flash.updateFailure sampleUpdate.name "disk full"]) :=
  ⟨by decide, by decide,
   update_failure_rollback_redisplays_submission sampleDb 1 sampleUpdate cafeOne
     "disk full" (by decide) (by decide)⟩

/-- A concrete report request carrying the correct admin key together with a
valid closure report. -/
def sampleKeyedReport : ReportRequest :=
  { api_key := some "TopSecretAPIKey"
    sender := some "visitor at example.org"
    message := some "This cafe looks permanently closed." }

/-- C3: on the report-closed endpoint, a request whose submitted key equals
the configured admin key deletes exactly the targeted row and leaves every
other row untouched, while a request whose key does not match deletes no row
and falls through to the closure-report branch. -/
theorem delete_key_removes_exactly_target
    (cfg : Config) (db : List Cafe) (cafe_id : Nat) (req : ReportRequest)
    (smtp : SmtpOutcome) (hnodup : (db.map Cafe.id).Nodup) :
    (∀ cafe : Cafe, req.api_key = some cfg.API_KEY →
      db.find? (fun c => c.id == cafe_id) = some cafe →
      (delete_cafe cfg db cafe_id req smtp).outcome = DeleteOutcome.redirectToCafes ∧
      (∀ c ∈ db, c.id ≠ cafe_id → c ∈ (delete_cafe cfg db cafe_id req smtp).db) ∧
      (∀ c ∈ (delete_cafe cfg db cafe_id req smtp).db, c ∈ db ∧ c.id ≠ cafe_id) ∧
      (delete_cafe cfg db cafe_id req smtp).db.length + 1 = db.length) ∧
    (req.api_key ≠ some cfg.API_KEY →
      delete_cafe cfg db cafe_id req smtp = report_branch db cafe_id req smtp ∧
      (delete_cafe cfg db cafe_id req smtp).db = db) := by
  constructor
  · intro cafe hkey hfind
    have hred : delete_cafe cfg db cafe_id req smtp
        = { db := db.filter (fun c => c.id != cafe_id)
            outcome := .redirectToCafes
            flashes := [.deleteSuccess cafe.name]
            emails := [] } := by
      simp [delete_cafe, hkey, hfind]
    rw [hred]
    refine ⟨rfl, ?_, ?_, ?_⟩
    · intro c hc hne
      exact List.mem_filter.mpr ⟨hc, by simpa using hne⟩
    · intro c hc
      have h' := List.mem_filter.mp hc
      exact ⟨h'.1, by simpa using h'.2⟩
    · have hid : cafe.id = cafe_id := by simpa using List.find?_some hfind
      exact filter_delete_length db cafe_id cafe hnodup
        (List.mem_of_find?_eq_some hfind) hid
  · intro hne
    have hred : delete_cafe cfg db cafe_id req smtp = report_branch db cafe_id req smtp := by
      simp [delete_cafe, hne]
    exact ⟨hred, by rw [hred]; exact report_branch_db db cafe_id req smtp⟩

/-- C3 witness: the theorem applied to the concrete sample table and a
correct-key request targeting row 2. -/
theorem delete_key_removes_exactly_target_witness :
    (sampleDb.map Cafe.id).Nodup ∧
    ((∀ cafe : Cafe, sampleKeyedReport.api_key = some sampleConfig.API_KEY →
       sampleDb.find? (fun c => c.id == 2) = some cafe →
       (delete_cafe sampleConfig sampleDb 2 sampleKeyedReport .sent).outcome
         = DeleteOutcome.redirectToCafes ∧
       (∀ c ∈ sampleDb, c.id ≠ 2 →
         c ∈ (delete_cafe sampleConfig sampleDb 2 sampleKeyedReport .sent).db) ∧
       (∀ c ∈ (delete_cafe sampleConfig sampleDb 2 sampleKeyedReport .sent).db,
         c ∈ sampleDb ∧ c.id ≠ 2) ∧
       (delete_cafe sampleConfig sampleDb 2 sampleKeyedReport .sent).db.length + 1
         = sampleDb.length) ∧
     (sampleKeyedReport.api_key ≠ some sampleConfig.API_KEY →
       delete_cafe sampleConfig sampleDb 2 sampleKeyedReport .sent
         = report_branch sampleDb 2 sampleKeyedReport .sent ∧
       (delete_cafe sampleConfig sampleDb 2 sampleKeyedReport .sent).db = sampleDb)) :=
  ⟨by decide,
   delete_key_removes_exactly_target sampleConfig sampleDb 2 sampleKeyedReport .sent
     (by decide)⟩

/-- C9: with a non-matching key and a validating closure report, the handler
404s when the target row is absent, and otherwise leaves the table unchanged,
dispatches exactly the composed notification, and redirects to the listing
view whatever the SMTP outcome; a dispatch failure surfaces only as a danger
flash, never as a request failure. -/
theorem report_dispatch_redirects_regardless
    (cfg : Config) (db : List Cafe) (cafe_id : Nat) (req : ReportRequest)
    (smtp : SmtpOutcome)
    (hne : req.api_key ≠ some cfg.API_KEY)
    (hval : reportFormValidates req = true) :
    (db.find? (fun c => c.id == cafe_id) = none →
      delete_cafe cfg db cafe_id req smtp
        = { db := db, outcome := .notFound, flashes := [], emails := [] }) ∧
    (∀ cafe : Cafe, db.find? (fun c => c.id == cafe_id) = some cafe →
      (delete_cafe cfg db cafe_id req smtp).db = db ∧
      (delete_cafe cfg db cafe_id req smtp).outcome = DeleteOutcome.redirectToCafes ∧
      (delete_cafe cfg db cafe_id req smtp).emails
        = [{ sender := (req.sender).getD ""
             message := composeMessage ((req.message).getD "") cafe }] ∧
      (smtp = SmtpOutcome.sent →
        (delete_cafe cfg db cafe_id req smtp).flashes
          = [Flash.emailSent, Flash.reportSent cafe.name]) ∧
      (∀ e : String, smtp = SmtpOutcome.failed e →
        (delete_cafe cfg db cafe_id req smtp).flashes
          = [Flash.emailFailed e, Flash.reportSent cafe.name])) := by
  have hred : delete_cafe cfg db cafe_id req smtp = report_branch db cafe_id req smtp := by
    simp [delete_cafe, hne]
  rw [hred]
  constructor
  · intro hnone
    simp [report_branch, hval, hnone]
  · intro cafe hfind
    cases smtp with
    | sent =>
      have hb : report_branch db cafe_id req .sent
          = { db := db
              outcome := .redirectToCafes
              flashes := [.emailSent, .reportSent cafe.name]
              emails := [{ sender := (req.sender).getD ""
                           message := composeMessage ((req.message).getD "") cafe }] } := by
        simp [report_branch, hval, hfind, send_email]
      rw [hb]
      refine ⟨rfl, rfl, rfl, fun _ => rfl, ?_⟩
      intro e he
      exact nomatch he
    | failed e0 =>
      have hb : report_branch db cafe_id req (.failed e0)
          = { db := db
              outcome := .redirectToCafes
              flashes := [.emailFailed e0, .reportSent cafe.name]
              emails := [{ sender := (req.sender).getD ""
                           message := composeMessage ((req.message).getD "") cafe }] } := by
        simp [report_branch, hval, hfind, send_email]
      rw [hb]
      refine ⟨rfl, rfl, rfl, ?_, ?_⟩
      · intro hs
        exact nomatch hs
      · intro e he
        injection he with h
        rw [h]

/-- C9 witness: the theorem applied to the sample table and the sample
wrong-key report request with a failing SMTP dialogue. -/
theorem report_dispatch_redirects_regardless_witness :
    sampleReport.api_key ≠ some sampleConfig.API_KEY ∧
    reportFormValidates sampleReport = true ∧
    ((sampleDb.find? (fun c => c.id == 2) = none →
       delete_cafe sampleConfig sampleDb 2 sampleReport (.failed "auth error")
         = { db := sampleDb, outcome := .notFound, flashes := [], emails := [] }) ∧
     (∀ cafe : Cafe, sampleDb.find? (fun c => c.id == 2) = some cafe →
       (delete_cafe sampleConfig sampleDb 2 sampleReport (.failed "auth error")).db
         = sampleDb ∧
       (delete_cafe sampleConfig sampleDb 2 sampleReport (.failed "auth error")).outcome
         = DeleteOutcome.redirectToCafes ∧
       (delete_cafe sampleConfig sampleDb 2 sampleReport (.failed "auth error")).emails
         = [{ sender := (sampleReport.sender).getD ""
              message := composeMessage ((sampleReport.message).getD "") cafe }] ∧
       ((.failed "auth error" : SmtpOutcome) = SmtpOutcome.sent →
         (delete_cafe sampleConfig sampleDb 2 sampleReport (.failed "auth error")).flashes
           = [Flash.emailSent, Flash.reportSent cafe.name]) ∧
       (∀ e : String, (.failed "auth error" : SmtpOutcome) = SmtpOutcome.failed e →
         (delete_cafe sampleConfig sampleDb 2 sampleReport (.failed "auth error")).flashes
           = [Flash.emailFailed e, Flash.reportSent cafe.name]))) :=
  ⟨by decide, by decide,
   report_dispatch_redirects_regardless sampleConfig sampleDb 2 sampleReport
     (.failed "auth error") (by decide) (by decide)⟩

/-- C10: the admin-key branch is checked before the closure-report branch: a
correct-key request deletes and returns at once, dispatching no email, even
when the same request also carries a valid closure report. -/
theorem correct_key_deletes_and_sends_no_email
    (cfg : Config) (db : List Cafe) (cafe_id : Nat) (req : ReportRequest)
    (smtp : SmtpOutcome) (cafe : Cafe)
    (hkey : req.api_key = some cfg.API_KEY)
    (_hval : reportFormValidates req = true)
    (hfind : db.find? (fun c => c.id == cafe_id) = some cafe) :
    delete_cafe cfg db cafe_id req smtp
      = { db := db.filter (fun c => c.id != cafe_id)
          outcome := DeleteOutcome.redirectToCafes
          flashes := [Flash.deleteSuccess cafe.name]
          emails := [] } := by
  simp [delete_cafe, hkey, hfind]

/-- C10 witness: the theorem applied to the sample table and a request that
carries both the correct key and a valid closure report. -/
theorem correct_key_deletes_and_sends_no_email_witness :
    sampleKeyedReport.api_key = some sampleConfig.API_KEY ∧
    reportFormValidates sampleKeyedReport = true ∧
    sampleDb.find? (fun c => c.id == 2) = some cafeTwo ∧
    delete_cafe sampleConfig sampleDb 2 sampleKeyedReport .sent
      = { db := sampleDb.filter (fun c => c.id != 2)
          outcome := DeleteOutcome.redirectToCafes
          flashes := [Flash.deleteSuccess cafeTwo.name]
          emails := [] } :=
  ⟨by decide, by decide, by decide,
   correct_key_deletes_and_sends_no_email sampleConfig sampleDb 2 sampleKeyedReport
     .sent cafeTwo (by decide) (by decide) (by decide)⟩

/-- C4: for every search query, if no row's location equals it the `/search`
endpoint returns the structured not-found payload with an ordinary 200 status
(not an HTTP error status), and if at least one row matches it returns the
full field set of the first matching row in table order. -/
theorem search_not_found_payload_or_first_match
    (db : List Cafe) (loc : Option String) :
    ((∀ c ∈ db, some c.location ≠ loc) →
      get_cafe_at_location db loc = SearchResult.notFoundPayload ∧
      searchStatus (get_cafe_at_location db loc) = 200) ∧
    (∀ (l1 : List Cafe) (cafe : Cafe) (l2 : List Cafe),
      db = l1 ++ cafe :: l2 → some cafe.location = loc →
      (∀ c ∈ l1, some c.location ≠ loc) →
      get_cafe_at_location db loc = SearchResult.found cafe) := by
  constructor
  · intro hnone
    have hfind : db.find? (fun c => some c.location == loc) = none := by
      rw [List.find?_eq_none]
      intro c hc
      simpa using hnone c hc
    exact ⟨by simp [get_cafe_at_location, hfind], rfl⟩
  · intro l1 cafe l2 hdb hcafe hl1
    have hfind : db.find? (fun c => some c.location == loc) = some cafe := by
      rw [hdb]
      apply find?_first_match
      · intro c hc
        simpa using hl1 c hc
      · simpa using hcafe
    simp [get_cafe_at_location, hfind]

/-- C4 witness: the theorem applied to the concrete sample table, with a
missing location and with the location of the second row. -/
theorem search_not_found_payload_or_first_match_witness :
    ((∀ c ∈ sampleDb, some c.location ≠ some "Oxford") →
      get_cafe_at_location sampleDb (some "Oxford") = SearchResult.notFoundPayload ∧
      searchStatus (get_cafe_at_location sampleDb (some "Oxford")) = 200) ∧
    (∀ (l1 : List Cafe) (cafe : Cafe) (l2 : List Cafe),
      sampleDb = l1 ++ cafe :: l2 → some cafe.location = some "Peckham" →
      (∀ c ∈ l1, some c.location ≠ some "Peckham") →
      get_cafe_at_location sampleDb (some "Peckham") = SearchResult.found cafe) :=
  ⟨(search_not_found_payload_or_first_match sampleDb (some "Oxford")).1,
   (search_not_found_payload_or_first_match sampleDb (some "Peckham")).2⟩

/-- C7: when the `cafes` table is empty, the `/random` handler does not
produce a deliberate no-data error response; `random.choice` raises an
`IndexError` that the handler leaves uncaught, so the request dies with the
framework's generic unhandled-exception failure. -/
theorem random_empty_table_unhandled_error :
    get_random_cafe [] 0 = RandomOutcome.unhandledIndexError := rfl

/-- C8: for every non-empty table and every draw, `/random` returns a row of
the table as structured data, and the draw is uniform over the fetched rows:
the seed classes modulo the table length map one-to-one onto the positions. -/
theorem random_nonempty_returns_uniform_row
    (db : List Cafe) (h : db ≠ []) (k : Nat) :
    (∃ cafe, get_random_cafe db k = RandomOutcome.ok cafe ∧ cafe ∈ db) ∧
    (∀ i : Fin db.length, get_random_cafe db i.val = RandomOutcome.ok (db.get i)) ∧
    get_random_cafe db k = get_random_cafe db (k % db.length) := by
  have hpos : 0 < db.length := List.length_pos.mpr h
  refine ⟨⟨db.get ⟨k % db.length, Nat.mod_lt _ hpos⟩, ?_, List.get_mem db _ _⟩, ?_, ?_⟩
  · simp [get_random_cafe, random_choice, h]
  · intro i
    simp [get_random_cafe, random_choice, h, Nat.mod_eq_of_lt i.isLt]
  · simp [get_random_cafe, random_choice, h, Nat.mod_mod_of_dvd]

/-- C8 witness: the theorem applied to the concrete two-row table with a
concrete draw. -/
theorem random_nonempty_returns_uniform_row_witness :
    sampleDb ≠ [] ∧
    ((∃ cafe, get_random_cafe sampleDb 5 = RandomOutcome.ok cafe ∧ cafe ∈ sampleDb) ∧
     (∀ i : Fin sampleDb.length,
       get_random_cafe sampleDb i.val = RandomOutcome.ok (sampleDb.get i)) ∧
     get_random_cafe sampleDb 5 = get_random_cafe sampleDb (5 % sampleDb.length)) :=
  ⟨by decide, random_nonempty_returns_uniform_row sampleDb (by decide) 5⟩

end CafeSite
